import Mathlib

/-!
Shallow embedding of the VLAN-aware Ethernet switch in `vswitch.c`.

Frames are modelled as lists of bytes (`List Nat`, each entry a `uint8_t`
value).  MAC addresses are the 6-byte lists extracted from a frame.  The
per-interface configuration (`struct Interface`) keeps the fields the
forwarding code reads: `ifc_num`, `tagged_vlans` (the `int16_t` array up to
its `NO_VLAN` terminator, as a list) and `untagged_vlan`.  The learning
table (`LookupTable`) keeps, per slot, the two fields the C code ever reads
or writes on a slot: the MAC and the interface number.

Emission of a frame (`forward_to`) is modelled by collecting
`(ifc_num, bytes)` pairs in the order the C loops produce them; the
out-of-bounds stack writes in the C copy loops touch only bytes beyond the
length passed to `forward_to`, so the emitted byte content is well defined
and is what the definitions below compute.
-/

/-- `NO_VLAN` sentinel (`#define NO_VLAN (-1)`). -/
def NO_VLAN : Int := -1

/-- `DEFAULT_VLAN` (`#define DEFAULT_VLAN 0`). -/
def DEFAULT_VLAN : Int := 0

/-- `MAX_VLANS` (`#define MAX_VLANS 4092`). -/
def MAX_VLANS : Nat := 4092

/-- Number of slots in the learning table (`#define NBR_ENTRIES 8`). -/
def NBR_ENTRIES : Nat := 8

/-- Sentinel interface number marking an unwritten slot
(`#define IF_NO_INIT 65535`). -/
def IF_NO_INIT : Nat := 65535

/-- Per-interface context (`struct Interface`), restricted to the fields the
switch reads: interface number, tagged-VLAN list (the `tagged_vlans` array up
to its `NO_VLAN` terminator) and the untagged VLAN. -/
structure Interface where
  ifc_num : Nat
  tagged_vlans : List Int
  untagged_vlan : Int
deriving DecidableEq, Repr

/-- `ifc->tagged_vlans[0]`: the first entry of the tagged-VLAN array, which
is the `NO_VLAN` terminator when the list is empty. -/
def tv0 (i : Interface) : Int := i.tagged_vlans.headD NO_VLAN

/-- One slot of the learning table: the two fields of the stored
`struct Interface` that `search_lookup_table` and `save_to_table` touch. -/
structure Slot where
  mac : List Nat
  ifc_num : Nat
deriving DecidableEq, Repr

/-- The all-zero MAC used by `lookup_table_init`. -/
def emptyMac : List Nat := List.replicate 6 0

/-- `struct LookupTable`: slot array, `nbr_position` and the write cursor
`current_position`. -/
structure LookupTable where
  table : List Slot
  nbr_position : Nat
  current_position : Nat
deriving DecidableEq, Repr

/-- `lookup_table_init`: every slot gets the all-zero MAC and interface
number `IF_NO_INIT`; `nbr_position := NBR_ENTRIES`; cursor `:= 0`. -/
def lookup_table_init : LookupTable :=
  { table := List.replicate NBR_ENTRIES { mac := emptyMac, ifc_num := IF_NO_INIT }
  , nbr_position := NBR_ENTRIES
  , current_position := 0 }

/-- The scan loop of `search_lookup_table` over the remaining slots: returns
the index (relative to the list handed in) and the slot of the first entry
whose MAC equals the target and whose `ifc_num` differs from `IF_NO_INIT`. -/
def searchAux (target : List Nat) : List Slot → Option (Nat × Slot)
  | [] => none
  | s :: rest =>
      if s.mac = target ∧ s.ifc_num ≠ IF_NO_INIT then some (0, s)
      else (searchAux target rest).map (fun p => (p.1 + 1, p.2))

/-- `search_lookup_table`: scan slots `0 .. nbr_position - 1`; a slot matches
when its MAC equals the target byte-for-byte and its `ifc_num` is not the
`IF_NO_INIT` sentinel.  Returns the slot index and the stored
`(mac, ifc_num)` (the C fills `found_interface` with them), or `none`
(the C returns `-1`). -/
def search_lookup_table (t : LookupTable) (target : List Nat) : Option (Nat × Slot) :=
  searchAux target (t.table.take t.nbr_position)

/-- `save_to_table`: if the MAC is found (per `search_lookup_table`) with the
same `ifc_num`, do nothing (C returns `-1`); if found with a different
`ifc_num`, overwrite that slot's `ifc_num` in place; otherwise write the MAC
and `ifc_num` into the slot at the cursor and advance the cursor modulo
`nbr_position`.  Returns the updated table and the C return value. -/
def save_to_table (t : LookupTable) (newMac : List Nat) (newIfc : Nat) :
    LookupTable × Int :=
  match search_lookup_table t newMac with
  | some (pos, found) =>
      if found.ifc_num = newIfc then (t, -1)
      else ({ t with table := t.table.set pos { mac := found.mac, ifc_num := newIfc } }, 0)
  | none =>
      ({ t with
          table := t.table.set t.current_position { mac := newMac, ifc_num := newIfc }
        , current_position := (t.current_position + 1) % t.nbr_position }, 0)

/-- Destination MAC of a frame: bytes 0..5 (`header.dst`). -/
def dstMac (frame : List Nat) : List Nat := frame.take 6

/-- Source MAC of a frame: bytes 6..11 (`header.src`). -/
def srcMac (frame : List Nat) : List Nat := (frame.drop 6).take 6

/-- `ntohs(header.tag)`: the big-endian 16-bit field at byte offset 12. -/
def ethertype (frame : List Nat) : Nat :=
  frame.getD 12 0 * 256 + frame.getD 13 0

/-- Byte content emitted by the tag-stripping branch of
`parse_tagged_frame`: destination and source MAC (bytes 0..11) followed by
the bytes from offset 16 on, truncated to the emitted length
`frame_size - 4` (for frames shorter than 16 bytes the copy loop reads
nothing usable into the emitted range, so the emission is just the first
`frame_size - 4` header bytes). -/
def stripTag (frame : List Nat) : List Nat :=
  ((frame.take 12) ++ frame.drop 16).take (frame.length - 4)

/-- Byte content emitted by the tag-inserting branch of
`parse_untagged_frame`: destination and source MAC, then the 4-byte shim
`0x81 0x00 0x00 0x01` (`tpid = htons(0x8100)`, `tci = htons(0x001)`), then
the bytes of the original frame from offset 12 on. -/
def addTag (frame : List Nat) : List Nat :=
  frame.take 12 ++ [0x81, 0x00, 0x00, 0x01] ++ frame.drop 12

/-- The member loop of `parse_tagged_frame` (after its guard): for each
other interface, forward verbatim when its first tagged VLAN equals the
ingress port's first tagged VLAN, else strip the tag and forward when its
untagged VLAN equals the ingress port's first tagged VLAN. -/
def floodTagged (gifc : List Interface) (ifc : Interface) (frame : List Nat) :
    List (Nat × List Nat) :=
  gifc.filterMap (fun g =>
    if g.ifc_num = ifc.ifc_num then none
    else if tv0 g = tv0 ifc then some (g.ifc_num, frame)
    else if g.untagged_vlan = tv0 ifc then some (g.ifc_num, stripTag frame)
    else none)

/-- `parse_tagged_frame`: drops the frame when the ingress interface has an
untagged VLAN configured; otherwise runs the member loop. -/
def parse_tagged_frame (gifc : List Interface) (ifc : Interface) (frame : List Nat) :
    List (Nat × List Nat) :=
  if ifc.untagged_vlan ≠ NO_VLAN then []
  else floodTagged gifc ifc frame

/-- `parse_untagged_frame`: for each other interface, forward verbatim when
its untagged VLAN equals the ingress port's untagged VLAN, else insert the
802.1Q shim and forward when its first tagged VLAN equals the ingress
port's untagged VLAN (the C repeats the same-interface test in this
branch). -/
def parse_untagged_frame (gifc : List Interface) (ifc : Interface) (frame : List Nat) :
    List (Nat × List Nat) :=
  gifc.filterMap (fun g =>
    if g.ifc_num = ifc.ifc_num then none
    else if g.untagged_vlan = ifc.untagged_vlan then some (g.ifc_num, frame)
    else if tv0 g = ifc.untagged_vlan ∧ g.ifc_num ≠ ifc.ifc_num then
      some (g.ifc_num, addTag frame)
    else none)

/-- Emission selection of `parse_frame`: when the destination lookup hit,
forward the frame verbatim to the interface number stored in the slot;
otherwise flood through the tagged path (EtherType field `0x8100`) or,
when the ingress interface has an untagged VLAN, through the untagged
path. -/
def parse_frame_emit (gifc : List Interface) (ifc : Interface) (frame : List Nat)
    (dstLookup : Option (Nat × Slot)) : List (Nat × List Nat) :=
  match dstLookup with
  | some (_, found) => [(found.ifc_num, frame)]
  | none =>
      if ethertype frame = 0x8100 then parse_tagged_frame gifc ifc frame
      else if ifc.untagged_vlan ≠ NO_VLAN then parse_untagged_frame gifc ifc frame
      else []

/-- `parse_frame` proper: lazily initialise the table (`nbr_position == 0`),
drop frames shorter than the 14-byte Ethernet header, drop frames whose
source MAC has the multicast bit set, learn the source, look the destination
up when it is unicast, and emit per `parse_frame_emit`.  Returns the
emissions (in order) and the updated learning table. -/
def parse_frame (gifc : List Interface) (ifc : Interface) (frame : List Nat)
    (t : LookupTable) : List (Nat × List Nat) × LookupTable :=
  let t1 := if t.nbr_position = 0 then lookup_table_init else t
  if frame.length < 14 then ([], t1)
  else if frame.getD 6 0 % 2 = 1 then ([], t1)
  else
    let t2 := (save_to_table t1 (srcMac frame) ifc.ifc_num).1
    let dstLookup :=
      if frame.getD 0 0 % 2 = 0 then search_lookup_table t2 (dstMac frame) else none
    (parse_frame_emit gifc ifc frame dstLookup, t2)

/-- All states the learning table reaches: `lookup_table_init` followed by a
sequence of `save_to_table` calls (the only mutations `parse_frame`
performs on the table). -/
def applyLearns (t : LookupTable) (ls : List (List Nat × Nat)) : LookupTable :=
  ls.foldl (fun t x => (save_to_table t x.1 x.2).1) t

lemma searchAux_some {m : List Nat} {l : List Slot} {i : Nat} {s : Slot}
    (h : searchAux m l = some (i, s)) :
    l.get? i = some s ∧ s.mac = m ∧ s.ifc_num ≠ IF_NO_INIT := by
  induction l generalizing i with
  | nil => simp [searchAux] at h
  | cons a rest ih =>
      rw [searchAux] at h
      split at h
      · rename_i hc
        rw [Option.some_inj] at h
        cases h
        exact ⟨rfl, hc.1, hc.2⟩
      · cases he : searchAux m rest with
        | none => rw [he] at h; simp at h
        | some pr =>
            obtain ⟨j, s'⟩ := pr
            rw [he] at h
            simp only [Option.map_some'] at h
            cases h
            obtain ⟨h1, h2, h3⟩ := ih he
            exact ⟨h1, h2, h3⟩

lemma searchAux_none {m : List Nat} {l : List Slot} :
    searchAux m l = none ↔ ∀ s ∈ l, ¬(s.mac = m ∧ s.ifc_num ≠ IF_NO_INIT) := by
  induction l with
  | nil => simp [searchAux]
  | cons a rest ih =>
      rw [searchAux]
      split
      · rename_i hc
        simp only [iff_iff_implies_and_implies]
        constructor
        · intro h; exact absurd h (by simp)
        · intro h; exact absurd hc (h a (List.mem_cons_self a rest))
      · rename_i hc
        simp only [Option.map_eq_none', ih]
        constructor
        · intro h s hs
          rcases List.mem_cons.mp hs with rfl | hs'
          · exact hc
          · exact h s hs'
        · intro h s hs
          exact h s (List.mem_cons_of_mem a hs)

lemma search_some {t : LookupTable} {M : List Nat} {i : Nat} {s : Slot}
    (h : search_lookup_table t M = some (i, s)) :
    t.table.get? i = some s ∧ s.mac = M ∧ s.ifc_num ≠ IF_NO_INIT ∧
      i < t.table.length := by
  obtain ⟨h1, h2, h3⟩ := searchAux_some h
  have hlt : i < (t.table.take t.nbr_position).length := by
    by_contra hge
    rw [List.get?_eq_none.mpr (Nat.le_of_not_lt hge)] at h1
    exact Option.noConfusion h1
  have hlen : i < t.table.length := by
    have := List.length_take t.nbr_position t.table ▸ hlt
    omega
  refine ⟨?_, h2, h3, hlen⟩
  rw [List.get?_take ?_] at h1
  · exact h1
  · have := List.length_take t.nbr_position t.table ▸ hlt
    omega

lemma save_preserves_zero_inv {t : LookupTable} {M : List Nat} {p : Nat}
    (hM : M ≠ emptyMac)
    (hinv : ∀ s ∈ t.table, s.mac = emptyMac → s.ifc_num = IF_NO_INIT) :
    ∀ s ∈ (save_to_table t M p).1.table, s.mac = emptyMac → s.ifc_num = IF_NO_INIT := by
  intro s hs hmac
  unfold save_to_table at hs
  cases he : search_lookup_table t M with
  | some pr =>
      obtain ⟨i, f⟩ := pr
      rw [he] at hs
      by_cases hif : f.ifc_num = p
      · simp only [hif, if_pos rfl] at hs
        exact hinv s hs hmac
      · simp only [if_neg hif] at hs
        rcases List.mem_or_eq_of_mem_set hs with h1 | h1
        · exact hinv s h1 hmac
        · subst h1
          have hfm : f.mac = M := (search_some he).2.1
          simp only at hmac
          rw [hfm] at hmac
          exact absurd hmac hM
  | none =>
      rw [he] at hs
      rcases List.mem_or_eq_of_mem_set hs with h1 | h1
      · exact hinv s h1 hmac
      · subst h1
        simp only at hmac
        exact absurd hmac hM

lemma applyLearns_zero_inv {ls : List (List Nat × Nat)}
    (h : ∀ x ∈ ls, x.1 ≠ emptyMac) {t : LookupTable}
    (hinv : ∀ s ∈ t.table, s.mac = emptyMac → s.ifc_num = IF_NO_INIT) :
    ∀ s ∈ (applyLearns t ls).table, s.mac = emptyMac → s.ifc_num = IF_NO_INIT := by
  induction ls generalizing t with
  | nil => exact hinv
  | cons x rest ih =>
      have hx : x.1 ≠ emptyMac := h x (List.mem_cons_self x rest)
      exact ih (fun y hy => h y (List.mem_cons_of_mem x hy))
        (save_preserves_zero_inv hx hinv)

lemma search_none_of_zero_inv {t : LookupTable}
    (hinv : ∀ s ∈ t.table, s.mac = emptyMac → s.ifc_num = IF_NO_INIT) :
    search_lookup_table t emptyMac = none := by
  unfold search_lookup_table
  rw [searchAux_none]
  intro s hs hc
  exact hc.2 (hinv s (List.mem_of_mem_take hs) hc.1)

/-- C10: the table is initialised with the `IF_NO_INIT` port sentinel and the
all-zero MAC in every slot; a successful search never reports a slot whose
stored port is the sentinel; and in every state reachable from the initial
table by `save_to_table` calls that never learn the all-zero MAC, a lookup of
the all-zero MAC returns "not found" instead of matching an empty slot. -/
theorem C10_no_unwritten_slot_reported :
    (∀ s ∈ lookup_table_init.table, s.mac = emptyMac ∧ s.ifc_num = IF_NO_INIT) ∧
    (∀ (t : LookupTable) (M : List Nat) (i : Nat) (s : Slot),
        search_lookup_table t M = some (i, s) → s.ifc_num ≠ IF_NO_INIT) ∧
    (∀ ls : List (List Nat × Nat), (∀ x ∈ ls, x.1 ≠ emptyMac) →
        search_lookup_table (applyLearns lookup_table_init ls) emptyMac = none) := by
  refine ⟨?_, ?_, ?_⟩
  · intro s hs
    rw [lookup_table_init, List.mem_replicate] at hs
    rw [hs.2]
    exact ⟨rfl, rfl⟩
  · intro t M i s h
    exact (search_some h).2.2.1
  · intro ls h
    refine search_none_of_zero_inv (applyLearns_zero_inv h ?_)
    intro s hs _
    rw [lookup_table_init, List.mem_replicate] at hs
    rw [hs.2]

/-- Witness for C10: after learning one non-zero MAC on port 1, looking up
the all-zero MAC still fails. -/
theorem C10_witness :
    search_lookup_table (applyLearns lookup_table_init [([0, 1, 2, 3, 4, 5], 1)])
      emptyMac = none :=
  C10_no_unwritten_slot_reported.2.2 [([0, 1, 2, 3, 4, 5], 1)] (by decide)

/-- C6: effect of `save_to_table` on an arbitrary table state.  If the MAC is
found with the same port, nothing at all changes (and the C returns `-1`);
if it is found with a different port, exactly that slot's port is rewritten
in place with no cursor movement; if it is absent, the pair is written into
the cursor slot, no other slot changes, and the cursor advances modulo
`nbr_position`. -/
theorem C6_save_to_table_move_on_change :
    ∀ (t : LookupTable) (M : List Nat) (p : Nat),
    (∀ i s, search_lookup_table t M = some (i, s) → s.ifc_num = p →
        save_to_table t M p = (t, -1)) ∧
    (∀ i s, search_lookup_table t M = some (i, s) → s.ifc_num ≠ p →
        (save_to_table t M p).1.current_position = t.current_position ∧
        (save_to_table t M p).1.nbr_position = t.nbr_position ∧
        (save_to_table t M p).1.table.get? i = some { mac := M, ifc_num := p } ∧
        (∀ j, j ≠ i → (save_to_table t M p).1.table.get? j = t.table.get? j)) ∧
    (search_lookup_table t M = none → t.current_position < t.table.length →
        (save_to_table t M p).1.table.get? t.current_position
            = some { mac := M, ifc_num := p } ∧
        (∀ j, j ≠ t.current_position →
            (save_to_table t M p).1.table.get? j = t.table.get? j) ∧
        (save_to_table t M p).1.current_position
            = (t.current_position + 1) % t.nbr_position ∧
        (save_to_table t M p).1.nbr_position = t.nbr_position) := by
  intro t M p
  refine ⟨?_, ?_, ?_⟩
  · intro i s h hp
    unfold save_to_table
    rw [h]
    simp [hp]
  · intro i s h hp
    obtain ⟨hget, hmac, _, hlen⟩ := search_some h
    unfold save_to_table
    rw [h]
    simp only [if_neg hp]
    refine ⟨by trivial, by trivial, ?_, ?_⟩
    · rw [hmac] at *
      exact List.get?_set_eq_of_lt { mac := M, ifc_num := p } hlen
    · intro j hj
      exact List.get?_set_ne _ _ (fun he => hj he.symm)
  · intro h hcur
    unfold save_to_table
    rw [h]
    refine ⟨?_, ?_, rfl, rfl⟩
    · exact List.get?_set_eq_of_lt _ hcur
    · intro j hj
      exact List.get?_set_ne _ _ (fun he => hj he.symm)

/-- Witness for C6: on the initial table (where the MAC is absent) the pair
is written at the cursor slot 0 and the cursor advances to 1. -/
theorem C6_witness :
    (save_to_table lookup_table_init [0, 1, 2, 3, 4, 5] 1).1.table.get? 0
        = some { mac := [0, 1, 2, 3, 4, 5], ifc_num := 1 } ∧
    (save_to_table lookup_table_init [0, 1, 2, 3, 4, 5] 1).1.current_position = 1 := by
  have h := (C6_save_to_table_move_on_change lookup_table_init [0, 1, 2, 3, 4, 5] 1).2.2
    (by decide) (by decide)
  exact ⟨h.1, h.2.2.1⟩

/-- C5: a frame whose source MAC has the multicast bit set (low bit of byte
6 of the frame) produces no emission and leaves the (initialised) learning
table exactly unchanged. -/
theorem C5_multicast_source_dropped :
    ∀ (gifc : List Interface) (ifc : Interface) (frame : List Nat) (t : LookupTable),
      t.nbr_position ≠ 0 → frame.getD 6 0 % 2 = 1 →
      parse_frame gifc ifc frame t = ([], t) := by
  intro gifc ifc frame t hnbr hsrc
  unfold parse_frame
  simp only [if_neg hnbr]
  by_cases hlen : frame.length < 14
  · simp [hlen]
  · rw [if_neg hlen, if_pos hsrc]

/-- Witness for C5: a concrete multicast-source frame on a two-port switch
is dropped with the table untouched. -/
theorem C5_witness :
    parse_frame
      [{ ifc_num := 1, tagged_vlans := [], untagged_vlan := 0 },
       { ifc_num := 2, tagged_vlans := [], untagged_vlan := 0 }]
      { ifc_num := 1, tagged_vlans := [], untagged_vlan := 0 }
      [0, 170, 136, 102, 68, 34, 1, 17, 34, 170, 187, 204, 8, 0]
      lookup_table_init = ([], lookup_table_init) :=
  C5_multicast_source_dropped _ _ _ _ (by decide) (by decide)

lemma mem_parse_untagged_frame {gifc : List Interface} {ifc : Interface}
    {frame : List Nat} {q : Nat} {bs : List Nat}
    (h : (q, bs) ∈ parse_untagged_frame gifc ifc frame) :
    ∃ g ∈ gifc, g.ifc_num = q ∧ g.ifc_num ≠ ifc.ifc_num ∧
      ((g.untagged_vlan = ifc.untagged_vlan ∧ bs = frame) ∨
       (g.untagged_vlan ≠ ifc.untagged_vlan ∧ tv0 g = ifc.untagged_vlan ∧
        bs = addTag frame)) := by
  rw [parse_untagged_frame, List.mem_filterMap] at h
  obtain ⟨g, hg, heq⟩ := h
  refine ⟨g, hg, ?_⟩
  by_cases h1 : g.ifc_num = ifc.ifc_num
  · rw [if_pos h1] at heq; exact absurd heq (by simp)
  · rw [if_neg h1] at heq
    by_cases h2 : g.untagged_vlan = ifc.untagged_vlan
    · rw [if_pos h2, Option.some_inj, Prod.mk.injEq] at heq
      exact ⟨heq.1, h1, Or.inl ⟨h2, heq.2.symm⟩⟩
    · rw [if_neg h2] at heq
      by_cases h3 : tv0 g = ifc.untagged_vlan ∧ g.ifc_num ≠ ifc.ifc_num
      · rw [if_pos h3, Option.some_inj, Prod.mk.injEq] at heq
        exact ⟨heq.1, h1, Or.inr ⟨h2, h3.1, heq.2.symm⟩⟩
      · rw [if_neg h3] at heq; exact absurd heq (by simp)

lemma mem_floodTagged {gifc : List Interface} {ifc : Interface}
    {frame : List Nat} {q : Nat} {bs : List Nat}
    (h : (q, bs) ∈ floodTagged gifc ifc frame) :
    ∃ g ∈ gifc, g.ifc_num = q ∧ g.ifc_num ≠ ifc.ifc_num ∧
      ((tv0 g = tv0 ifc ∧ bs = frame) ∨
       (tv0 g ≠ tv0 ifc ∧ g.untagged_vlan = tv0 ifc ∧ bs = stripTag frame)) := by
  rw [floodTagged, List.mem_filterMap] at h
  obtain ⟨g, hg, heq⟩ := h
  refine ⟨g, hg, ?_⟩
  by_cases h1 : g.ifc_num = ifc.ifc_num
  · rw [if_pos h1] at heq; exact absurd heq (by simp)
  · rw [if_neg h1] at heq
    by_cases h2 : tv0 g = tv0 ifc
    · rw [if_pos h2, Option.some_inj, Prod.mk.injEq] at heq
      exact ⟨heq.1, h1, Or.inl ⟨h2, heq.2.symm⟩⟩
    · rw [if_neg h2] at heq
      by_cases h3 : g.untagged_vlan = tv0 ifc
      · rw [if_pos h3, Option.some_inj, Prod.mk.injEq] at heq
        exact ⟨heq.1, h1, Or.inr ⟨h2, h3, heq.2.symm⟩⟩
      · rw [if_neg h3] at heq; exact absurd heq (by simp)

lemma mem_parse_tagged_frame {gifc : List Interface} {ifc : Interface}
    {frame : List Nat} {q : Nat} {bs : List Nat}
    (h : (q, bs) ∈ parse_tagged_frame gifc ifc frame) :
    ifc.untagged_vlan = NO_VLAN ∧ (q, bs) ∈ floodTagged gifc ifc frame := by
  rw [parse_tagged_frame] at h
  by_cases hu : ifc.untagged_vlan ≠ NO_VLAN
  · rw [if_pos hu] at h; exact absurd h (by simp)
  · rw [if_neg hu] at h
    exact ⟨Decidable.not_not.mp hu, h⟩

lemma mem_parse_frame {gifc : List Interface} {ifc : Interface} {frame : List Nat}
    {t : LookupTable} {q : Nat} {bs : List Nat}
    (h : (q, bs) ∈ (parse_frame gifc ifc frame t).1) :
    14 ≤ frame.length ∧
      (bs = frame ∨ (q, bs) ∈ parse_tagged_frame gifc ifc frame ∨
        (q, bs) ∈ parse_untagged_frame gifc ifc frame) := by
  simp only [parse_frame] at h
  by_cases hlen : frame.length < 14
  · rw [if_pos hlen] at h; exact absurd h (by simp)
  · rw [if_neg hlen] at h
    refine ⟨by omega, ?_⟩
    by_cases hsrc : frame.getD 6 0 % 2 = 1
    · rw [if_pos hsrc] at h; exact absurd h (by simp)
    · rw [if_neg hsrc] at h
      simp only at h
      rcases hd : (if frame.getD 0 0 % 2 = 0 then
          search_lookup_table
            (save_to_table (if t.nbr_position = 0 then lookup_table_init else t)
              (srcMac frame) ifc.ifc_num).1 (dstMac frame)
        else none) with _ | pr
      · rw [hd] at h
        rw [parse_frame_emit] at h
        by_cases het : ethertype frame = 0x8100
        · rw [if_pos het] at h; exact Or.inr (Or.inl h)
        · rw [if_neg het] at h
          by_cases hu : ifc.untagged_vlan ≠ NO_VLAN
          · rw [if_pos hu] at h; exact Or.inr (Or.inr h)
          · rw [if_neg hu] at h; exact absurd h (by simp)
      · obtain ⟨i, s⟩ := pr
        rw [hd] at h
        rw [parse_frame_emit] at h
        rcases List.mem_singleton.mp h with he
        rw [Prod.mk.injEq] at he
        exact Or.inl he.2

lemma addTag_drop_eighteen {frame : List Nat} (h : 12 ≤ frame.length) :
    (addTag frame).drop 18 = frame.drop 14 := by
  have h12 : (frame.take 12).length = 12 := by rw [List.length_take]; omega
  rw [addTag, List.append_assoc]
  rw [show (18 : Nat) = (frame.take 12).length + 6 by rw [h12]]
  rw [List.drop_append]
  show (frame.drop 12).drop 2 = frame.drop 14
  rw [List.drop_drop]

lemma addTag_tag_bytes {frame : List Nat} (h : 12 ≤ frame.length) :
    ((addTag frame).drop 12).take 4 = [0x81, 0x00, 0x00, 0x01] := by
  have h12 : (frame.take 12).length = 12 := by rw [List.length_take]; omega
  rw [addTag, List.append_assoc, List.drop_left' h12]
  rfl

lemma stripTag_drop_fourteen {frame : List Nat} :
    (stripTag frame).drop 14 = frame.drop 18 := by
  rw [stripTag, List.drop_take]
  by_cases h : 12 ≤ frame.length
  · have h12 : (frame.take 12).length = 12 := by rw [List.length_take]; omega
    have e1 : ((frame.take 12 ++ frame.drop 16).drop 12).drop 2
        = (frame.take 12 ++ frame.drop 16).drop 14 := List.drop_drop 2 12 _
    rw [← e1, List.drop_left' h12, List.drop_drop]
    by_cases h18 : 18 ≤ frame.length
    · apply List.take_all_of_le
      rw [List.length_drop]
      omega
    · rw [List.drop_eq_nil_of_le (by omega)]
      exact List.take_nil
  · have h1 : frame.take 12 = frame := List.take_all_of_le (by omega)
    have h2 : frame.drop 16 = [] := List.drop_eq_nil_of_le (by omega)
    have h3 : frame.drop 14 = [] := List.drop_eq_nil_of_le (by omega)
    have h4 : frame.drop 18 = [] := List.drop_eq_nil_of_le (by omega)
    rw [h1, h2, List.append_nil, h3, h4, List.take_nil]

/-- Unicast MAC `00:01:02:03:04:05`. -/
def macA : List Nat := [0, 1, 2, 3, 4, 5]

/-- Unicast MAC `00:09:09:09:09:09`. -/
def macB : List Nat := [0, 9, 9, 9, 9, 9]

/-- Unicast MAC `00:03:03:03:03:03`. -/
def macC : List Nat := [0, 3, 3, 3, 3, 3]

/-- Port 1, untagged member of VLAN 0 (spec `p1` or `p1[U:0]`). -/
def ifU0p1 : Interface := { ifc_num := 1, tagged_vlans := [], untagged_vlan := 0 }

/-- Port 2, untagged member of VLAN 0. -/
def ifU0p2 : Interface := { ifc_num := 2, tagged_vlans := [], untagged_vlan := 0 }

/-- Port 2, untagged member of VLAN 1 (spec `p2[U:1]`). -/
def ifU1p2 : Interface := { ifc_num := 2, tagged_vlans := [], untagged_vlan := 1 }

/-- Port 1, untagged member of VLAN 2 (spec `p1[U:2]`). -/
def ifU2p1 : Interface := { ifc_num := 1, tagged_vlans := [], untagged_vlan := 2 }

/-- Port 2, tagged member of VLAN 2 (spec `p2[T:2]`). -/
def ifT2p2 : Interface := { ifc_num := 2, tagged_vlans := [2], untagged_vlan := NO_VLAN }

/-- Port 1, tagged member of VLAN 1 (spec `p1[T:1]`). -/
def ifT1p1 : Interface := { ifc_num := 1, tagged_vlans := [1], untagged_vlan := NO_VLAN }

/-- Port 2, tagged member of VLAN 1 (spec `p2[T:1]`). -/
def ifT1p2 : Interface := { ifc_num := 2, tagged_vlans := [1], untagged_vlan := NO_VLAN }

/-- Untagged frame addressed to its own source MAC (`dst = src = macA`). -/
def fSelf : List Nat := macA ++ macA ++ [8, 0]

/-- Untagged frame, `dst = macB` (unknown), `src = macA`, 2 payload bytes. -/
def fAddEx : List Nat := macB ++ macA ++ [8, 0, 7, 7]

/-- Tagged frame with TCI VID 5, `dst = macB` (unknown), `src = macA`. -/
def fTag5 : List Nat := macB ++ macA ++ [0x81, 0, 0, 5, 8, 0, 0xAA, 0xBB]

/-- 14-byte frame whose EtherType field reads `0x8100`. -/
def fT14 : List Nat := macB ++ macA ++ [0x81, 0]

/-- Untagged frame, `dst = macC` (unknown), `src = macB`. -/
def fBunk : List Nat := macC ++ macB ++ [8, 0]

/-- Untagged frame, `dst = macB`, `src = macA`. -/
def fAtoB : List Nat := macB ++ macA ++ [8, 0]

/-- C3 (amended): on the two flood paths the engine never emits on the
ingress interface — both member loops skip the interface whose `ifc_num`
equals the ingress interface's.  (The learned-unicast path of `parse_frame`
has no such check; see the counterexample.) -/
theorem C3_flood_no_self_loop :
    ∀ (gifc : List Interface) (ifc : Interface) (frame : List Nat)
      (q : Nat) (bs : List Nat),
      ((q, bs) ∈ parse_tagged_frame gifc ifc frame → q ≠ ifc.ifc_num) ∧
      ((q, bs) ∈ parse_untagged_frame gifc ifc frame → q ≠ ifc.ifc_num) := by
  intro gifc ifc frame q bs
  constructor
  · intro h
    obtain ⟨-, h⟩ := mem_parse_tagged_frame h
    obtain ⟨g, -, hq, hne, -⟩ := mem_floodTagged h
    rw [← hq]
    exact hne
  · intro h
    obtain ⟨g, -, hq, hne, -⟩ := mem_parse_untagged_frame h
    rw [← hq]
    exact hne

/-- Counterexample for C3 as stated: a self-addressed frame on port 1 of a
two-port VLAN-0 switch is emitted back on port 1 (the learned-unicast path
forwards to the looked-up port without comparing it to the ingress port). -/
theorem C3_counterexample :
    ¬ (∀ q bs, (q, bs) ∈ (parse_frame [ifU0p1, ifU0p2] ifU0p1 fSelf
          lookup_table_init).1 → q ≠ ifU0p1.ifc_num) := by
  intro h
  exact h 1 fSelf (by decide) (by decide)

/-- Witness for C3: the untagged flood of `fSelf` from port 1 reaches
port 2, and the theorem yields `2 ≠ 1`. -/
theorem C3_witness : (2 : Nat) ≠ ifU0p1.ifc_num :=
  (C3_flood_no_self_loop [ifU0p1, ifU0p2] ifU0p1 fSelf 2 fSelf).2 (by decide)

/-- C2 (amended): when the destination MAC is unicast and the lookup (after
the source has been learned) hits a slot, `parse_frame` emits exactly one
verbatim copy on the stored interface number — regardless of whether that
interface participates in the ingress VLAN; there is no drop and no
flood. -/
theorem C2_learned_unicast_forwarded_unfiltered :
    ∀ (gifc : List Interface) (ifc : Interface) (frame : List Nat)
      (t : LookupTable) (i : Nat) (s : Slot),
      ¬ frame.length < 14 → ¬ frame.getD 6 0 % 2 = 1 → frame.getD 0 0 % 2 = 0 →
      search_lookup_table
        (save_to_table (if t.nbr_position = 0 then lookup_table_init else t)
          (srcMac frame) ifc.ifc_num).1 (dstMac frame) = some (i, s) →
      (parse_frame gifc ifc frame t).1 = [(s.ifc_num, frame)] := by
  intro gifc ifc frame t i s hlen hsrc hdst hfind
  simp only [parse_frame]
  rw [if_neg hlen, if_neg hsrc]
  simp only [if_pos hdst, hfind, parse_frame_emit]

/-- Counterexample for C2 as stated: `macB` is learned on port 2 (VLAN 1);
a frame to `macB` then enters on port 1 (VLAN 0).  Port 2 is not in VLAN 0's
egress set, yet the frame is emitted on port 2 instead of being dropped. -/
theorem C2_counterexample :
    (∀ g ∈ [ifU0p1, ifU1p2], g.ifc_num = 2 →
        g.untagged_vlan ≠ ifU0p1.untagged_vlan ∧ tv0 g ≠ ifU0p1.untagged_vlan) ∧
    search_lookup_table
      (parse_frame [ifU0p1, ifU1p2] ifU1p2 fBunk lookup_table_init).2
      (dstMac fAtoB) = some (0, { mac := macB, ifc_num := 2 }) ∧
    (parse_frame [ifU0p1, ifU1p2] ifU0p1 fAtoB
        (parse_frame [ifU0p1, ifU1p2] ifU1p2 fBunk lookup_table_init).2).1
      = [(2, fAtoB)] := by decide

/-- Witness for C2: the theorem applied to the concrete cross-VLAN state. -/
theorem C2_witness :
    (parse_frame [ifU0p1, ifU1p2] ifU0p1 fAtoB
        (parse_frame [ifU0p1, ifU1p2] ifU1p2 fBunk lookup_table_init).2).1
      = [((({ mac := macB, ifc_num := 2 } : Slot)).ifc_num, fAtoB)] :=
  C2_learned_unicast_forwarded_unfiltered [ifU0p1, ifU1p2] ifU0p1 fAtoB
    (parse_frame [ifU0p1, ifU1p2] ifU1p2 fBunk lookup_table_init).2
    0 { mac := macB, ifc_num := 2 } (by decide) (by decide) (by decide) (by decide)

/-- C7: every emission of `parse_frame` carries the ingress payload
byte-for-byte: it is the frame verbatim (keep-tag and verbatim cases and the
learned-unicast path), or the frame with the shim inserted (bytes from
offset 18 of the emission equal bytes from offset 14 of the ingress frame),
or the frame with the shim removed (bytes from offset 14 of the emission
equal bytes from offset 18 of the ingress frame). -/
theorem C7_payload_preservation :
    ∀ (gifc : List Interface) (ifc : Interface) (frame : List Nat)
      (t : LookupTable) (q : Nat) (bs : List Nat),
      (q, bs) ∈ (parse_frame gifc ifc frame t).1 →
      bs = frame ∨
      (bs = addTag frame ∧ bs.drop 18 = frame.drop 14) ∨
      (bs = stripTag frame ∧ bs.drop 14 = frame.drop 18) := by
  intro gifc ifc frame t q bs h
  obtain ⟨hlen, hcase⟩ := mem_parse_frame h
  rcases hcase with rfl | htag | huntag
  · exact Or.inl rfl
  · obtain ⟨-, hf⟩ := mem_parse_tagged_frame htag
    obtain ⟨g, -, -, -, hc⟩ := mem_floodTagged hf
    rcases hc with ⟨-, rfl⟩ | ⟨-, -, rfl⟩
    · exact Or.inl rfl
    · exact Or.inr (Or.inr ⟨rfl, stripTag_drop_fourteen⟩)
  · obtain ⟨g, -, -, -, hc⟩ := mem_parse_untagged_frame huntag
    rcases hc with ⟨-, rfl⟩ | ⟨-, -, rfl⟩
    · exact Or.inl rfl
    · exact Or.inr (Or.inl ⟨rfl, addTag_drop_eighteen (by omega)⟩)

/-- Witness for C7: the tag-inserting emission of `fAddEx` on port 2
satisfies the payload equalities. -/
theorem C7_witness :
    addTag fAddEx = fAddEx ∨
    (addTag fAddEx = addTag fAddEx ∧ (addTag fAddEx).drop 18 = fAddEx.drop 14) ∨
    (addTag fAddEx = stripTag fAddEx ∧ (addTag fAddEx).drop 14 = fAddEx.drop 18) :=
  C7_payload_preservation [ifU2p1, ifT2p2] ifU2p1 fAddEx lookup_table_init
    2 (addTag fAddEx) (by decide)

/-- C1 (amended): every emission of `parse_frame` is the frame verbatim
(this covers the keep-tag flood case, the untagged-to-untagged flood case,
and the learned-unicast path, which applies no transformation at all); or
it goes to a port whose first tagged VLAN equals the ingress port's
untagged VLAN and carries the inserted shim `0x8100`/TCI `0x0001` — VID 1
regardless of the ingress VLAN; or it goes to a port whose untagged VLAN
equals the ingress port's first tagged VLAN and has the 4-byte shim
removed. -/
theorem C1_tag_transformation :
    ∀ (gifc : List Interface) (ifc : Interface) (frame : List Nat)
      (t : LookupTable) (q : Nat) (bs : List Nat),
      (q, bs) ∈ (parse_frame gifc ifc frame t).1 →
      bs = frame ∨
      (bs = addTag frame ∧ (bs.drop 12).take 4 = [0x81, 0x00, 0x00, 0x01] ∧
        ∃ g ∈ gifc, g.ifc_num = q ∧ tv0 g = ifc.untagged_vlan) ∨
      (bs = stripTag frame ∧
        ∃ g ∈ gifc, g.ifc_num = q ∧ g.untagged_vlan = tv0 ifc) := by
  intro gifc ifc frame t q bs h
  obtain ⟨hlen, hcase⟩ := mem_parse_frame h
  rcases hcase with rfl | htag | huntag
  · exact Or.inl rfl
  · obtain ⟨-, hf⟩ := mem_parse_tagged_frame htag
    obtain ⟨g, hg, hq, -, hc⟩ := mem_floodTagged hf
    rcases hc with ⟨-, rfl⟩ | ⟨-, hu, rfl⟩
    · exact Or.inl rfl
    · exact Or.inr (Or.inr ⟨rfl, g, hg, hq, hu⟩)
  · obtain ⟨g, hg, hq, -, hc⟩ := mem_parse_untagged_frame huntag
    rcases hc with ⟨-, rfl⟩ | ⟨-, htv, rfl⟩
    · exact Or.inl rfl
    · exact Or.inr (Or.inl ⟨rfl, addTag_tag_bytes (by omega), g, hg, hq, htv⟩)

/-- Counterexample for C1 as stated: port 2 is a tagged member of the
ingress VLAN 2, but the emission it receives carries TCI VID 1, not 2. -/
theorem C1_counterexample :
    (2 : Int) ∈ ifT2p2.tagged_vlans ∧ ifU2p1.untagged_vlan = 2 ∧
    ¬ (∀ bs, ((2 : Nat), bs) ∈ (parse_frame [ifU2p1, ifT2p2] ifU2p1 fAddEx
          lookup_table_init).1 →
        (bs.getD 14 0 * 256 + bs.getD 15 0) % 4096 = 2) := by
  refine ⟨by decide, by decide, ?_⟩
  intro h
  exact absurd (h (addTag fAddEx) (by decide)) (by decide)

/-- Witness for C1: the concrete tag-inserting emission instantiates the
theorem's middle disjunct. -/
theorem C1_witness :
    addTag fAddEx = fAddEx ∨
    (addTag fAddEx = addTag fAddEx ∧
      ((addTag fAddEx).drop 12).take 4 = [0x81, 0x00, 0x00, 0x01] ∧
      ∃ g ∈ [ifU2p1, ifT2p2], g.ifc_num = 2 ∧ tv0 g = ifU2p1.untagged_vlan) ∨
    (addTag fAddEx = stripTag fAddEx ∧
      ∃ g ∈ [ifU2p1, ifT2p2], g.ifc_num = 2 ∧ g.untagged_vlan = tv0 ifU2p1) :=
  C1_tag_transformation [ifU2p1, ifT2p2] ifU2p1 fAddEx lookup_table_init
    2 (addTag fAddEx) (by decide)

lemma floodTagged_targets (gifc : List Interface) (ifc : Interface)
    (frame : List Nat) :
    (floodTagged gifc ifc frame).map Prod.fst
      = (gifc.filter (fun g =>
          g.ifc_num ≠ ifc.ifc_num ∧
            (tv0 g = tv0 ifc ∨ g.untagged_vlan = tv0 ifc))).map Interface.ifc_num := by
  induction gifc with
  | nil => rfl
  | cons g rest ih =>
      simp only [floodTagged, List.filterMap_cons, List.filter_cons] at ih ⊢
      by_cases h1 : g.ifc_num = ifc.ifc_num
      · simp [h1, ih]
      · by_cases h2 : tv0 g = tv0 ifc
        · simp [h1, h2, ih]
        · by_cases h3 : g.untagged_vlan = tv0 ifc
          · simp [h1, h2, h3, ih]
          · simp [h1, h2, h3, ih]

/-- C4 (amended): for a frame whose EtherType field reads `0x8100`, the
ingress VLAN the code uses is the ingress port's **first tagged VLAN**, not
the frame's TCI VID: the flood result is independent of the frame bytes
(in particular of the TCI), the frame is dropped exactly when the ingress
port has an untagged VLAN configured (no membership test against the TCI
VID is ever made), and the egress ports are those whose first tagged VLAN
or untagged VLAN equals the ingress port's first tagged VLAN. -/
theorem C4_tagged_ingress_ignores_tci :
    ∀ (gifc : List Interface) (ifc : Interface) (f1 f2 : List Nat),
      (ifc.untagged_vlan ≠ NO_VLAN → parse_tagged_frame gifc ifc f1 = []) ∧
      ((parse_tagged_frame gifc ifc f1).map Prod.fst
          = (parse_tagged_frame gifc ifc f2).map Prod.fst) ∧
      (ifc.untagged_vlan = NO_VLAN →
        (parse_tagged_frame gifc ifc f1).map Prod.fst
          = (gifc.filter (fun g =>
              g.ifc_num ≠ ifc.ifc_num ∧
                (tv0 g = tv0 ifc ∨ g.untagged_vlan = tv0 ifc))).map
              Interface.ifc_num) := by
  intro gifc ifc f1 f2
  refine ⟨?_, ?_, ?_⟩
  · intro hu
    rw [parse_tagged_frame, if_pos hu]
  · by_cases hu : ifc.untagged_vlan ≠ NO_VLAN
    · rw [parse_tagged_frame, if_pos hu, parse_tagged_frame, if_pos hu]
    · rw [parse_tagged_frame, if_neg hu, parse_tagged_frame, if_neg hu]
      rw [floodTagged_targets, floodTagged_targets]
  · intro hu
    rw [parse_tagged_frame, if_neg (by rw [hu]; exact fun hc => hc rfl)]
    exact floodTagged_targets gifc ifc f1

/-- Counterexample for C4 as stated: a tagged frame with TCI VID 5 enters
port 1, which is a tagged member only of VLAN 1; the claim requires a drop,
but the frame is stripped and emitted on port 2. -/
theorem C4_counterexample :
    (∀ v ∈ ifT1p1.tagged_vlans, v ≠ 5) ∧
    ethertype fTag5 = 0x8100 ∧
    (fTag5.getD 14 0 * 256 + fTag5.getD 15 0) % 4096 = 5 ∧
    (parse_frame [ifT1p1, ifU1p2] ifT1p1 fTag5 lookup_table_init).1
      = [(2, stripTag fTag5)] := by decide

/-- Witness for C4: on an ingress port with an untagged VLAN the tagged
flood path emits nothing, via the theorem's first conjunct. -/
theorem C4_witness : parse_tagged_frame [ifU2p1, ifT2p2] ifU2p1 fTag5 = [] :=
  (C4_tagged_ingress_ignores_tci [ifU2p1, ifT2p2] ifU2p1 fTag5 fTag5).1 (by decide)

/-- C8 (amended): every frame shorter than 14 bytes is dropped silently —
no emission and no effect on an initialised learning table.  (Frames whose
EtherType field reads `0x8100` with length 14..17 are *not* dropped; see
the counterexample.) -/
theorem C8_short_frames_dropped :
    ∀ (gifc : List Interface) (ifc : Interface) (frame : List Nat)
      (t : LookupTable),
      t.nbr_position ≠ 0 → frame.length < 14 →
      parse_frame gifc ifc frame t = ([], t) := by
  intro gifc ifc frame t hnbr hlen
  unfold parse_frame
  simp only [if_neg hnbr]
  rw [if_pos hlen]

/-- Counterexample for C8 as stated: a 14-byte frame with EtherType field
`0x8100` (shorter than the claimed 18-byte minimum) is flooded to the
other tagged port, not dropped. -/
theorem C8_counterexample :
    ethertype fT14 = 0x8100 ∧ fT14.length = 14 ∧
    (parse_frame [ifT1p1, ifT1p2] ifT1p1 fT14 lookup_table_init).1
      = [(2, fT14)] := by decide

/-- Witness for C8: a 3-byte frame is dropped with the table untouched. -/
theorem C8_witness :
    parse_frame [ifU0p1, ifU0p2] ifU0p1 [1, 2, 3] lookup_table_init
      = ([], lookup_table_init) :=
  C8_short_frames_dropped [ifU0p1, ifU0p2] ifU0p1 [1, 2, 3] lookup_table_init
    (by decide) (by decide)

/-- Exact decimal magnitude of a digit run, as `strtoul` accumulates it
before any range handling. -/
def digitsMag (ds : List Char) : Nat :=
  ds.foldl (fun a c => a * 10 + (c.toNat - 48)) 0

/-- The `unsigned long` value `strtoul` produces from a magnitude and a
sign: a magnitude above `ULONG_MAX` (64-bit target) is clamped to
`ULONG_MAX` (glibc sets `ERANGE`); otherwise a leading `'-'` negates in
`unsigned long` arithmetic, i.e. modulo `2^64`. -/
def u64OfMag (mag : Nat) (neg : Bool) : Nat :=
  if 2 ^ 64 - 1 < mag then 2 ^ 64 - 1
  else if neg then (2 ^ 64 - mag) % 2 ^ 64 else mag

/-- Value `sscanf("%u")` stores for an unsigned digit run: the `strtoul`
result truncated to `unsigned int` on assignment, i.e. modulo `2^32`
(so `4294967296` is stored as `0`). -/
def u32val (ds : List Char) : Nat :=
  u64OfMag (digitsMag ds) false % 2 ^ 32

/-- `sscanf("%u", ...)` on a token, following glibc `strtoul` semantics:
skip leading white space, accept one optional `'+'` or `'-'`, then a
nonempty run of decimal digits (fail when none follows); the magnitude is
clamped to `ULONG_MAX` on overflow, a `'-'` negates modulo `2^64`, and the
assignment to the `unsigned int` argument truncates modulo `2^32`. -/
def scanU (s : List Char) : Option Nat :=
  let s1 := s.dropWhile (fun c =>
    c == ' ' || c == '\t' || c == '\n' || c == '\x0b' || c == '\x0c' || c == '\r')
  if s1.head? = some '-' then
    let ds := s1.tail.takeWhile Char.isDigit
    if ds = [] then none else some (u64OfMag (digitsMag ds) true % 2 ^ 32)
  else if s1.head? = some '+' then
    let ds := s1.tail.takeWhile Char.isDigit
    if ds = [] then none else some (u64OfMag (digitsMag ds) false % 2 ^ 32)
  else
    let ds := s1.takeWhile Char.isDigit
    if ds = [] then none else some (u64OfMag (digitsMag ds) false % 2 ^ 32)

/-- `strtok` on a separator, accumulator style: maximal nonempty runs of
non-separator characters; empty tokens are skipped, exactly as `strtok`
does. -/
def strtokAux (sep : Char) : List Char → List Char → List (List Char)
  | [], cur => if cur = [] then [] else [cur.reverse]
  | c :: cs, cur =>
      if c = sep then
        (if cur = [] then strtokAux sep cs [] else cur.reverse :: strtokAux sep cs [])
      else strtokAux sep cs (c :: cur)

/-- All `strtok` tokens of a string. -/
def strtokAll (sep : Char) (s : List Char) : List (List Char) :=
  strtokAux sep s []

/-- The token loop of `parse_tagged`: fails when the token counter reaches
`MAX_VLANS` with tokens remaining, when a token yields no number, or when a
number exceeds `MAX_VLANS`; otherwise records the VLAN id and continues. -/
def parse_tagged_go : List (List Char) → Nat → List Int → Option (List Int)
  | [], _, acc => some acc.reverse
  | tok :: toks, pos, acc =>
      if pos = MAX_VLANS then none
      else
        match scanU tok with
        | none => none
        | some tag =>
            if tag > MAX_VLANS then none
            else parse_tagged_go toks (pos + 1) ((tag : Int) :: acc)

/-- `parse_tagged`: the characters strictly between `'T'` and `']'` must
start with `':'`; the remainder is tokenised on `','` and each token parsed
as a VLAN id.  Returns the `tagged_vlans` contents (up to the `NO_VLAN`
terminator) on success. -/
def parse_tagged (s : List Char) : Option (List Int) :=
  if s.head? = some ':' then parse_tagged_go (strtokAll ',' s.tail) 0 []
  else none

/-- `parse_untagged`: the characters strictly between `'U'` and `']'` must
start with `':'`; the remainder is read with `sscanf("%u")` and bounded by
`MAX_VLANS`. -/
def parse_untagged (s : List Char) : Option Int :=
  if s.head? = some ':' then
    match scanU s.tail with
    | none => none
    | some tag => if tag > MAX_VLANS then none else some ((tag : Int))
  else none

/-- Result of `parse_vlan_args` on one command-line argument: the interface
name and the VLAN memberships it initialises. -/
structure PortSpec where
  ifc_name : List Char
  tagged_vlans : List Int
  untagged_vlan : Int
deriving DecidableEq, Repr

/-- `parse_vlan_args`: no `'['` in the argument means the whole argument is
the name, untagged member of `DEFAULT_VLAN`.  Otherwise the name is the
prefix before the first `'['`; a `']'` must follow it; the first character
after `'['` selects tagged (`'T'`), untagged (`'U'`) or failure. -/
def parse_vlan_args (arg : List Char) : Option PortSpec :=
  if '[' ∈ arg then
    let nm := arg.takeWhile (fun c => c != '[')
    let rest := (arg.dropWhile (fun c => c != '[')).tail
    if ']' ∈ rest then
      let inside := rest.takeWhile (fun c => c != ']')
      if inside.head? = some 'T' then
        (parse_tagged inside.tail).map
          (fun tv => { ifc_name := nm, tagged_vlans := tv, untagged_vlan := NO_VLAN })
      else if inside.head? = some 'U' then
        (parse_untagged inside.tail).map
          (fun uv => { ifc_name := nm, tagged_vlans := [], untagged_vlan := uv })
      else none
    else none
  else some { ifc_name := arg, tagged_vlans := [], untagged_vlan := DEFAULT_VLAN }

lemma takeWhile_append_first {α : Type} (p : α → Bool) {n : List α} {c : α}
    (r : List α) (hn : ∀ x ∈ n, p x = true) (hc : p c = false) :
    (n ++ c :: r).takeWhile p = n := by
  induction n with
  | nil => simp [List.takeWhile_cons, hc]
  | cons a t ih =>
      have ha : p a = true := hn a (List.mem_cons_self a t)
      simp only [List.cons_append, List.takeWhile_cons, ha, if_true]
      rw [ih (fun x hx => hn x (List.mem_cons_of_mem a hx))]

lemma dropWhile_append_first {α : Type} (p : α → Bool) {n : List α} {c : α}
    (r : List α) (hn : ∀ x ∈ n, p x = true) (hc : p c = false) :
    (n ++ c :: r).dropWhile p = c :: r := by
  induction n with
  | nil => simp [List.dropWhile_cons, hc]
  | cons a t ih =>
      have ha : p a = true := hn a (List.mem_cons_self a t)
      simp only [List.cons_append, List.dropWhile_cons, ha, if_true]
      exact ih (fun x hx => hn x (List.mem_cons_of_mem a hx))

lemma takeWhile_all {α : Type} (p : α → Bool) {l : List α}
    (h : ∀ x ∈ l, p x = true) : l.takeWhile p = l := by
  induction l with
  | nil => rfl
  | cons a t ih =>
      have ha : p a = true := h a (List.mem_cons_self a t)
      simp only [List.takeWhile_cons, ha, if_true]
      rw [ih (fun x hx => h x (List.mem_cons_of_mem a hx))]

lemma digit_not_space {c : Char} (hc : c.isDigit = true) :
    (c == ' ' || c == '\t' || c == '\n' || c == '\x0b' || c == '\x0c' || c == '\r')
      = false := by
  by_contra h
  rw [Bool.not_eq_false] at h
  simp only [Bool.or_eq_true, beq_iff_eq] at h
  rcases h with ((((h | h) | h) | h) | h) | h <;> subst h <;>
    exact absurd hc (by decide)

lemma digit_not_minus {c : Char} (hc : c.isDigit = true) : c ≠ '-' := by
  intro he
  subst he
  exact absurd hc (by decide)

lemma digit_not_plus {c : Char} (hc : c.isDigit = true) : c ≠ '+' := by
  intro he
  subst he
  exact absurd hc (by decide)

lemma scanU_digits {ds : List Char} (h1 : ds ≠ [])
    (h2 : ∀ c ∈ ds, c.isDigit = true) : scanU ds = some (u32val ds) := by
  obtain ⟨c, cs, rfl⟩ := List.exists_cons_of_ne_nil h1
  have hc : c.isDigit = true := h2 c (List.mem_cons_self c cs)
  have hm : ¬ ((c :: cs).head? = some '-') := by
    simp only [List.head?_cons, Option.some.injEq]
    exact digit_not_minus hc
  have hp : ¬ ((c :: cs).head? = some '+') := by
    simp only [List.head?_cons, Option.some.injEq]
    exact digit_not_plus hc
  rw [scanU]
  simp only [List.dropWhile_cons, digit_not_space hc, Bool.false_eq_true, if_false]
  rw [if_neg hm, if_neg hp, takeWhile_all Char.isDigit h2]
  simp [u32val]

lemma strtokAux_no_sep {sep : Char} {s : List Char} (h : sep ∉ s) :
    ∀ cur : List Char,
      strtokAux sep s cur
        = if cur = [] ∧ s = [] then [] else [cur.reverse ++ s] := by
  induction s with
  | nil =>
      intro cur
      rw [strtokAux]
      by_cases hc : cur = []
      · simp [hc]
      · simp [hc]
  | cons c cs ih =>
      intro cur
      have hcs : sep ∉ cs := fun hx => h (List.mem_cons_of_mem _ hx)
      have hcne : ¬ (c = sep) := fun he => h (he ▸ List.mem_cons_self c cs)
      rw [strtokAux, if_neg hcne, ih hcs (c :: cur)]
      simp [List.reverse_cons]

lemma strtok_single {sep : Char} {s : List Char} (h1 : sep ∉ s) (h2 : s ≠ []) :
    strtokAll sep s = [s] := by
  rw [strtokAll, strtokAux_no_sep h1 []]
  simp [h2]

lemma parse_tagged_go_overflow :
    ∀ {toks : List (List Char)} {pos : Nat} {acc : List Int},
      pos ≤ MAX_VLANS → MAX_VLANS < toks.length + pos → toks ≠ [] →
      parse_tagged_go toks pos acc = none := by
  intro toks
  induction toks with
  | nil => intro pos acc _ _ hne; exact absurd rfl hne
  | cons t ts ih =>
      intro pos acc hle hgt _
      rw [parse_tagged_go]
      by_cases hp : pos = MAX_VLANS
      · rw [if_pos hp]
      · rw [if_neg hp]
        cases hsc : scanU t with
        | none => simp [hsc]
        | some v =>
            simp only [hsc]
            by_cases hv : v > MAX_VLANS
            · rw [if_pos hv]
            · rw [if_neg hv]
              by_cases hts : ts = []
              · subst hts
                rw [List.length_cons, List.length_nil] at hgt
                omega
              · refine ih ?_ ?_ hts
                · omega
                · rw [List.length_cons] at hgt
                  omega

lemma parse_tagged_go_success :
    ∀ {toks : List (List Char)} {pos : Nat} {acc : List Int},
      toks.length + pos ≤ MAX_VLANS →
      (∀ tok ∈ toks, ∃ v, scanU tok = some v ∧ v ≤ MAX_VLANS) →
      parse_tagged_go toks pos acc
        = some (acc.reverse
            ++ toks.map (fun tok => (((scanU tok).getD 0 : Nat) : Int))) := by
  intro toks
  induction toks with
  | nil => intro pos acc _ _; simp [parse_tagged_go]
  | cons t ts ih =>
      intro pos acc hlen hall
      obtain ⟨v, hv, hvle⟩ := hall t (List.mem_cons_self t ts)
      have hlen' : ts.length + (pos + 1) ≤ MAX_VLANS := by
        rw [List.length_cons] at hlen; omega
      have hp : ¬ pos = MAX_VLANS := by
        rw [List.length_cons] at hlen; omega
      rw [parse_tagged_go, if_neg hp]
      simp only [hv]
      rw [if_neg (by omega : ¬ v > MAX_VLANS)]
      rw [ih hlen' (fun tok htok => hall tok (List.mem_cons_of_mem t htok))]
      simp [hv, List.reverse_cons, List.append_assoc]

lemma parse_vlan_args_split {nm rest : List Char} (hnm : '[' ∉ nm) :
    parse_vlan_args (nm ++ '[' :: rest)
      = (if ']' ∈ rest then
          (if (rest.takeWhile (fun c => c != ']')).head? = some 'T' then
            (parse_tagged (rest.takeWhile (fun c => c != ']')).tail).map
              (fun tv =>
                { ifc_name := nm, tagged_vlans := tv, untagged_vlan := NO_VLAN })
          else if (rest.takeWhile (fun c => c != ']')).head? = some 'U' then
            (parse_untagged (rest.takeWhile (fun c => c != ']')).tail).map
              (fun uv => { ifc_name := nm, tagged_vlans := [], untagged_vlan := uv })
          else none)
        else none) := by
  have hmem : '[' ∈ nm ++ '[' :: rest :=
    List.mem_append_right _ (List.mem_cons_self _ _)
  have hn : ∀ x ∈ nm, (x != '[') = true := fun x hx => by
    rw [bne_iff_ne]
    exact fun he => hnm (he ▸ hx)
  simp only [parse_vlan_args]
  rw [if_pos hmem, takeWhile_append_first _ rest hn (by simp),
    dropWhile_append_first _ rest hn (by simp)]
  simp only [List.tail_cons]

lemma parse_tagged_colon (rest : List Char) :
    parse_tagged (':' :: rest) = parse_tagged_go (strtokAll ',' rest) 0 [] := by
  simp [parse_tagged]

lemma parse_untagged_colon (rest : List Char) :
    parse_untagged (':' :: rest)
      = (match scanU rest with
         | none => none
         | some tag => if tag > MAX_VLANS then none else some ((tag : Int))) := by
  simp [parse_untagged]

lemma parse_tagged_no_colon {s : List Char} (h : s.head? ≠ some ':') :
    parse_tagged s = none := by
  rw [parse_tagged, if_neg h]

lemma parse_untagged_no_colon {s : List Char} (h : s.head? ≠ some ':') :
    parse_untagged s = none := by
  rw [parse_untagged, if_neg h]

lemma digit_bne_rbracket {c : Char} (hc : c.isDigit = true) : (c != ']') = true := by
  rw [bne_iff_ne]
  intro he
  subst he
  exact absurd hc (by decide)

lemma digit_not_comma {ds : List Char} (hdig : ∀ c ∈ ds, c.isDigit = true) :
    ',' ∉ ds :=
  fun hmem => absurd (hdig ',' hmem) (by decide)

lemma parse_vlan_args_U_digits {nm ds tl : List Char} (hnm : '[' ∉ nm)
    (hne : ds ≠ []) (hdig : ∀ c ∈ ds, c.isDigit = true) :
    parse_vlan_args (nm ++ '[' :: 'U' :: ':' :: (ds ++ ']' :: tl))
      = (if u32val ds > MAX_VLANS then none
         else some { ifc_name := nm, tagged_vlans := [],
                     untagged_vlan := (u32val ds : Int) }) := by
  have hrest : ('U' :: ':' :: (ds ++ ']' :: tl))
      = ('U' :: ':' :: ds) ++ ']' :: tl := by simp
  have hn : ∀ x ∈ 'U' :: ':' :: ds, (x != ']') = true := by
    intro x hx
    rcases List.mem_cons.mp hx with rfl | hx
    · decide
    · rcases List.mem_cons.mp hx with rfl | hx
      · decide
      · exact digit_bne_rbracket (hdig x hx)
  rw [parse_vlan_args_split hnm, hrest]
  rw [if_pos (List.mem_append_right _ (List.mem_cons_self _ _))]
  rw [takeWhile_append_first _ tl hn (by decide)]
  simp only [List.head?_cons, Option.some.injEq, List.tail_cons]
  rw [if_neg (by decide : ¬ ('U' = 'T')), if_pos trivial]
  rw [parse_untagged_colon, scanU_digits hne hdig]
  by_cases hval : u32val ds > MAX_VLANS
  · rw [if_pos hval]
    simp [hval]
  · rw [if_neg hval]
    simp [hval]

lemma parse_vlan_args_T_digits {nm ds tl : List Char} (hnm : '[' ∉ nm)
    (hne : ds ≠ []) (hdig : ∀ c ∈ ds, c.isDigit = true) :
    parse_vlan_args (nm ++ '[' :: 'T' :: ':' :: (ds ++ ']' :: tl))
      = (if u32val ds > MAX_VLANS then none
         else some { ifc_name := nm, tagged_vlans := [(u32val ds : Int)],
                     untagged_vlan := NO_VLAN }) := by
  have hrest : ('T' :: ':' :: (ds ++ ']' :: tl))
      = ('T' :: ':' :: ds) ++ ']' :: tl := by simp
  have hn : ∀ x ∈ 'T' :: ':' :: ds, (x != ']') = true := by
    intro x hx
    rcases List.mem_cons.mp hx with rfl | hx
    · decide
    · rcases List.mem_cons.mp hx with rfl | hx
      · decide
      · exact digit_bne_rbracket (hdig x hx)
  rw [parse_vlan_args_split hnm, hrest]
  rw [if_pos (List.mem_append_right _ (List.mem_cons_self _ _))]
  rw [takeWhile_append_first _ tl hn (by decide)]
  simp only [List.head?_cons, Option.some.injEq, List.tail_cons]
  rw [if_pos trivial]
  rw [parse_tagged_colon, strtok_single (digit_not_comma hdig) hne]
  rw [parse_tagged_go, if_neg (by decide : ¬ (0 = MAX_VLANS))]
  simp only [scanU_digits hne hdig]
  by_cases hval : u32val ds > MAX_VLANS
  · rw [if_pos hval]
    simp [hval]
  · rw [if_neg hval]
    rw [parse_tagged_go]
    simp [hval]

/-- C9 (amended): port-spec parsing accepts a bare name (no `'['`) as an
untagged member of `DEFAULT_VLAN` 0, and fails on: `'['` without a
following `']'`; a membership letter other than `'T'`/`'U'`; a missing
`':'` after the letter; a VLAN id whose **stored** `sscanf("%u")` value —
the digit string's magnitude clamped to `ULONG_MAX` and truncated modulo
`2^32` (`u32val`) — exceeds `MAX_VLANS` (4092), tagged or untagged; more
than `MAX_VLANS` tagged tokens.  A digit string of `2^32` or more wraps on
storage and is accepted whenever the wrapped value is in range (see the
counterexample).  Completeness of the acceptance side is shown for the
grammar's canonical forms `NAME[U:VID]` and `NAME[T:VID]` with digit VIDs
whose stored value is in range. -/
theorem C9_portspec_parsing :
    (∀ nm : List Char, '[' ∉ nm →
        parse_vlan_args nm
          = some { ifc_name := nm, tagged_vlans := [],
                   untagged_vlan := DEFAULT_VLAN }) ∧
    (∀ arg : List Char, '[' ∈ arg →
        ']' ∉ (arg.dropWhile (fun c => c != '[')).tail →
        parse_vlan_args arg = none) ∧
    (∀ (nm : List Char) (c : Char) (r : List Char), '[' ∉ nm → ']' ∈ c :: r →
        c ≠ 'T' → c ≠ 'U' →
        parse_vlan_args (nm ++ '[' :: c :: r) = none) ∧
    (∀ (nm : List Char) (c : Char) (r : List Char), '[' ∉ nm → ']' ∈ c :: r →
        c ≠ ':' →
        parse_vlan_args (nm ++ '[' :: 'T' :: c :: r) = none) ∧
    (∀ (nm : List Char) (c : Char) (r : List Char), '[' ∉ nm → ']' ∈ c :: r →
        c ≠ ':' →
        parse_vlan_args (nm ++ '[' :: 'U' :: c :: r) = none) ∧
    (∀ seg : List Char, MAX_VLANS < (strtokAll ',' seg).length →
        parse_tagged (':' :: seg) = none) ∧
    (∀ nm ds tl : List Char, '[' ∉ nm → ds ≠ [] →
        (∀ c ∈ ds, c.isDigit = true) → MAX_VLANS < u32val ds →
        parse_vlan_args (nm ++ '[' :: 'U' :: ':' :: (ds ++ ']' :: tl)) = none) ∧
    (∀ nm ds tl : List Char, '[' ∉ nm → ds ≠ [] →
        (∀ c ∈ ds, c.isDigit = true) → MAX_VLANS < u32val ds →
        parse_vlan_args (nm ++ '[' :: 'T' :: ':' :: (ds ++ ']' :: tl)) = none) ∧
    (∀ nm ds tl : List Char, '[' ∉ nm → ds ≠ [] →
        (∀ c ∈ ds, c.isDigit = true) → u32val ds ≤ MAX_VLANS →
        parse_vlan_args (nm ++ '[' :: 'U' :: ':' :: (ds ++ ']' :: tl))
          = some { ifc_name := nm, tagged_vlans := [],
                   untagged_vlan := (u32val ds : Int) }) ∧
    (∀ nm ds tl : List Char, '[' ∉ nm → ds ≠ [] →
        (∀ c ∈ ds, c.isDigit = true) → u32val ds ≤ MAX_VLANS →
        parse_vlan_args (nm ++ '[' :: 'T' :: ':' :: (ds ++ ']' :: tl))
          = some { ifc_name := nm, tagged_vlans := [(u32val ds : Int)],
                   untagged_vlan := NO_VLAN }) := by
  refine ⟨?_, ?_, ?_, ?_, ?_, ?_, ?_, ?_, ?_, ?_⟩
  · intro nm h
    rw [parse_vlan_args, if_neg h]
  · intro arg h1 h2
    simp only [parse_vlan_args]
    rw [if_pos h1, if_neg h2]
  · intro nm c r hnm hin hT hU
    rw [parse_vlan_args_split hnm, if_pos hin]
    by_cases hc : (c != ']') = true
    · rw [List.takeWhile_cons, if_pos hc]
      simp only [List.head?_cons, Option.some.injEq]
      rw [if_neg hT, if_neg hU]
    · rw [List.takeWhile_cons, if_neg hc]
      simp
  · intro nm c r hnm hin hc
    rw [parse_vlan_args_split hnm, if_pos (List.mem_cons_of_mem 'T' hin)]
    rw [List.takeWhile_cons, if_pos (by decide : (('T' : Char) != ']') = true)]
    simp only [List.head?_cons, Option.some.injEq, List.tail_cons]
    rw [if_pos trivial]
    by_cases hcr : (c != ']') = true
    · rw [List.takeWhile_cons, if_pos hcr]
      rw [parse_tagged_no_colon (by simpa using hc)]
      rfl
    · rw [List.takeWhile_cons, if_neg hcr]
      rw [parse_tagged_no_colon (by simp)]
      rfl
  · intro nm c r hnm hin hc
    rw [parse_vlan_args_split hnm, if_pos (List.mem_cons_of_mem 'U' hin)]
    rw [List.takeWhile_cons, if_pos (by decide : (('U' : Char) != ']') = true)]
    simp only [List.head?_cons, Option.some.injEq, List.tail_cons]
    rw [if_neg (by decide : ¬ ('U' = 'T')), if_pos trivial]
    by_cases hcr : (c != ']') = true
    · rw [List.takeWhile_cons, if_pos hcr]
      rw [parse_untagged_no_colon (by simpa using hc)]
      rfl
    · rw [List.takeWhile_cons, if_neg hcr]
      rw [parse_untagged_no_colon (by simp)]
      rfl
  · intro seg hlen
    rw [parse_tagged_colon]
    refine parse_tagged_go_overflow (Nat.zero_le _) ?_ ?_
    · omega
    · intro he
      rw [he, List.length_nil] at hlen
      omega
  · intro nm ds tl hnm hne hdig hval
    rw [parse_vlan_args_U_digits hnm hne hdig, if_pos hval]
  · intro nm ds tl hnm hne hdig hval
    rw [parse_vlan_args_T_digits hnm hne hdig, if_pos hval]
  · intro nm ds tl hnm hne hdig hval
    rw [parse_vlan_args_U_digits hnm hne hdig, if_neg (by omega)]
  · intro nm ds tl hnm hne hdig hval
    rw [parse_vlan_args_T_digits hnm hne hdig, if_neg (by omega)]

/-- Counterexample for C9 as stated: the VID numeral `4294967296` is
greater than 4092, so the claim requires the spec `p[U:4294967296]` to be
rejected; `sscanf("%u")` stores `4294967296 mod 2^32 = 0`, and the spec is
accepted as an untagged member of VLAN 0. -/
theorem C9_counterexample :
    (4294967296 : Nat) > 4092 ∧
    parse_vlan_args
        (['p'] ++ '[' :: 'U' :: ':'
          :: (['4', '2', '9', '4', '9', '6', '7', '2', '9', '6'] ++ ']' :: []))
      = some { ifc_name := ['p'], tagged_vlans := [], untagged_vlan := 0 } := by
  decide

/-- Witness for C9: `eth0[U:7]` parses to an untagged member of VLAN 7. -/
theorem C9_witness :
    parse_vlan_args (['e', 't', 'h', '0'] ++ '[' :: 'U' :: ':' :: (['7'] ++ ']' :: []))
      = some { ifc_name := ['e', 't', 'h', '0'], tagged_vlans := [],
               untagged_vlan := (u32val ['7'] : Int) } :=
  C9_portspec_parsing.2.2.2.2.2.2.2.2.1 ['e', 't', 'h', '0'] ['7'] []
    (by decide) (by decide) (by decide) (by decide)
